import Mathlib

/-!
Verification of the plant-watering app's due-date core: the SQL filter in
`listPlants`, the derived `nextWateringDueAt` computed by `mapRow`
(src/backend/src/db.js), and the client's `isDueNow` / `dueLabel`
(frontend source), together with the create/update/delete state machine
behind the HTTP validation layer.

Time is modelled as an integer count of milliseconds since the epoch (the
value of `Date.prototype.getTime`).  A stored `last_watered_at` column is
either SQL NULL, an empty string, a non-empty string that does not parse
as a timestamp, or a non-empty string that parses to some instant `t`;
the four cases are the constructors of `RawTs`.  Adding `n` days to an
instant is `addDays`: both SQLite's `datetime(x, '+n days')` (Julian-day
arithmetic in UTC) and JavaScript's `setDate(getDate() + n)` advance the
instant by `n` whole days while preserving the time of day.
-/

namespace PlantApp

/-- Milliseconds per day (`1000 * 60 * 60 * 24` in the client). -/
def msPerDay : Int := 1000 * 60 * 60 * 24

/-- Advance an instant by `n` whole days. -/
def addDays (t n : Int) : Int := t + n * msPerDay

/-- `Math.ceil (a / b)` for integers, `b > 0`. -/
def ceilDiv (a b : Int) : Int := (a + b - 1) / b

/-- A raw stored timestamp value (`last_watered_at` column / JSON field):
SQL NULL (JS `null`), the empty string, a non-empty unparseable string,
or a non-empty string parsing to instant `t`. -/
inductive RawTs where
  | tsNull
  | tsEmpty
  | tsInvalid
  | tsValid (t : Int)
deriving DecidableEq, Repr

/-- JavaScript truthiness test `!x` for a string-or-null value:
`null` and the empty string are falsy. -/
def RawTs.isFalsy : RawTs → Bool
  | .tsNull => true
  | .tsEmpty => true
  | _ => false

/-- `new Date(x).getTime()` with `NaN` mapped to `none`. -/
def RawTs.parse : RawTs → Option Int
  | .tsValid t => some t
  | _ => none

/-- The storage contract for `last_watered_at`: SQL NULL or a parseable
timestamp string (what `parseDateOrNull` in the HTTP layer lets through). -/
def RawTs.wf : RawTs → Bool
  | .tsNull => true
  | .tsValid _ => true
  | _ => false

/-- A row of the `plants` table. -/
structure Row where
  id : Int
  name : String
  species : String
  watering_interval_days : Int
  last_watered_at : RawTs
  notes : String
  created_at : Int
deriving DecidableEq, Repr

/-- `nextWateringDueAt` (db.js): `null` when `lastWateredAt` is falsy or
does not parse, otherwise the parsed instant advanced by the interval in
days (`setDate(getDate() + n)` then `toISOString`). -/
def nextWateringDueAt (lastWateredAt : RawTs) (wateringIntervalDays : Int) : Option Int :=
  if lastWateredAt.isFalsy then none
  else
    match lastWateredAt.parse with
    | none => none
    | some t => some (addDays t wateringIntervalDays)

/-- Serialisation of the derived field back into a raw JSON value:
`null` stays `null`, an instant becomes its (parseable, non-empty) ISO
string. -/
def toStoredTs : Option Int → RawTs
  | none => .tsNull
  | some t => .tsValid t

/-- The API-level plant record produced by `mapRow`. -/
structure Plant where
  id : Int
  name : String
  species : String
  wateringIntervalDays : Int
  lastWateredAt : RawTs
  notes : String
  createdAt : Int
  nextWateringDueAt : RawTs
deriving DecidableEq, Repr

/-- `mapRow` (db.js): rename the columns and attach the derived
`nextWateringDueAt`. -/
def mapRow (row : Row) : Plant :=
  { id := row.id
    name := row.name
    species := row.species
    wateringIntervalDays := row.watering_interval_days
    lastWateredAt := row.last_watered_at
    notes := row.notes
    createdAt := row.created_at
    nextWateringDueAt :=
      toStoredTs (nextWateringDueAt row.last_watered_at row.watering_interval_days) }

/-! SQL three-valued logic: `none` is SQL NULL. -/

/-- SQL `OR`. -/
def sqlOr : Option Bool → Option Bool → Option Bool
  | some true, _ => some true
  | _, some true => some true
  | some false, some false => some false
  | _, _ => none

/-- SQL `AND`. -/
def sqlAnd : Option Bool → Option Bool → Option Bool
  | some false, _ => some false
  | _, some false => some false
  | some true, some true => some true
  | _, _ => none

/-- SQL `<=` on nullable values. -/
def sqlLe : Option Int → Option Int → Option Bool
  | some a, some b => some (decide (a ≤ b))
  | _, _ => none

/-- SQL `>` on nullable values. -/
def sqlGt : Option Int → Option Int → Option Bool
  | some a, some b => some (decide (b < a))
  | _, _ => none

/-- A row satisfies a WHERE clause only when it evaluates to TRUE
(NULL and FALSE both exclude the row). -/
def sqlIsTrue : Option Bool → Bool
  | some true => true
  | _ => false

/-- `last_watered_at IS NULL`. -/
def isNullTs : RawTs → Bool
  | .tsNull => true
  | _ => false

/-- SQLite's `datetime()` renders `YYYY-MM-DD HH:MM:SS`: the fractional
second of the instant is discarded, i.e. the instant is truncated down
to a whole second (one second = 1000 ms). -/
def truncSec (t : Int) : Int := t / 1000 * 1000

/-- `datetime(last_watered_at, '+' || watering_interval_days || ' days')`:
NULL when the column is NULL or does not parse as a timestamp, or when
the concatenated modifier is malformed (negative interval); otherwise
the instant advanced by the interval and truncated to a whole second by
the `YYYY-MM-DD HH:MM:SS` rendering. -/
def sqlDatetimeAddDays (last : RawTs) (d : Int) : Option Int :=
  match last with
  | .tsValid t => if 0 ≤ d then some (truncSec (addDays t d)) else none
  | _ => none

/-- WHERE clause of the `due` filter in `listPlants`; comparison with
`datetime('now')`, which is also truncated to a whole second. -/
def dueWhere (r : Row) (now : Int) : Option Bool :=
  sqlOr (some (isNullTs r.last_watered_at))
    (sqlLe (sqlDatetimeAddDays r.last_watered_at r.watering_interval_days)
      (some (truncSec now)))

/-- WHERE clause of the `upcoming` filter in `listPlants`. -/
def upcomingWhere (r : Row) (now : Int) : Option Bool :=
  sqlAnd (some (!isNullTs r.last_watered_at))
    (sqlGt (sqlDatetimeAddDays r.last_watered_at r.watering_interval_days)
      (some (truncSec now)))

/-- Row selection of `listPlants` for a given filter string: `due` and
`upcoming` add their WHERE clause, anything else selects every row. -/
def rowMatchesFilter (filter : String) (r : Row) (now : Int) : Bool :=
  if filter = "due" then sqlIsTrue (dueWhere r now)
  else if filter = "upcoming" then sqlIsTrue (upcomingWhere r now)
  else true

/-- `ORDER BY created_at DESC, id DESC` as a boolean total preorder:
`a` may precede `b` iff `a.created_at > b.created_at`, or they are equal
and `a.id ≥ b.id`. -/
def rowLe (a b : Row) : Bool :=
  if a.created_at = b.created_at then decide (b.id ≤ a.id)
  else decide (b.created_at < a.created_at)

/-- `listPlants` (db.js): select the rows matching the filter, order them
by `created_at DESC, id DESC`, and map each through `mapRow`. -/
def listPlants (table : List Row) (filter : String) (now : Int) : List Plant :=
  (((table.filter (fun r => rowMatchesFilter filter r now)).mergeSort rowLe).map mapRow)

/-- The persistent store: the `plants` table together with the next
AUTOINCREMENT id. -/
structure Store where
  rows : List Row
  nextId : Int
deriving DecidableEq, Repr

/-- `SELECT ... FROM plants WHERE id = ?` (first matching row). -/
def getRow (s : Store) (id : Int) : Option Row :=
  s.rows.find? (fun r => r.id == id)

/-- `getPlant` (db.js). -/
def getPlant (s : Store) (id : Int) : Option Plant :=
  (getRow s id).map mapRow

/-- The argument object of `createPlant`. -/
structure CreateInput where
  name : String
  species : String
  wateringIntervalDays : Int
  lastWateredAt : RawTs
  notes : String
deriving DecidableEq, Repr

/-- `createPlant` (db.js): INSERT the five supplied columns, let the
engine assign `id` (last_insert_rowid) and `created_at`
(CURRENT_TIMESTAMP, here `nowTs`), then re-fetch the row. -/
def createPlant (s : Store) (input : CreateInput) (nowTs : Int) : Store × Option Plant :=
  let row : Row :=
    { id := s.nextId
      name := input.name
      species := input.species
      watering_interval_days := input.wateringIntervalDays
      last_watered_at := input.lastWateredAt
      notes := input.notes
      created_at := nowTs }
  let next : Store := { rows := s.rows ++ [row], nextId := s.nextId + 1 }
  (next, if s.nextId = 0 then none else getPlant next s.nextId)

/-- The `updates` object passed to `updatePlant`.  For each field, `none`
means the property is absent or has a type the merge rejects; for
`lastWateredAt`, `some v` means the property is present as `null` or a
string (the two value shapes the merge accepts). -/
structure Updates where
  name : Option String := none
  species : Option String := none
  wateringIntervalDays : Option Int := none
  lastWateredAt : Option RawTs := none
  notes : Option String := none
deriving DecidableEq, Repr

/-- The field merge of `updatePlant` (db.js lines 154-165): `name` and
`species` change only for a non-empty string, `wateringIntervalDays`
only for an integer, `lastWateredAt` for a string or explicit null,
`notes` for any string. -/
def applyUpdates (existing : Row) (u : Updates) : Row :=
  { existing with
    name :=
      match u.name with
      | some nm => if 0 < nm.length then nm else existing.name
      | none => existing.name
    species :=
      match u.species with
      | some sp => if 0 < sp.length then sp else existing.species
      | none => existing.species
    watering_interval_days :=
      match u.wateringIntervalDays with
      | some w => w
      | none => existing.watering_interval_days
    last_watered_at :=
      match u.lastWateredAt with
      | some lw => lw
      | none => existing.last_watered_at
    notes :=
      match u.notes with
      | some nt => nt
      | none => existing.notes }

/-- The effect of the UPDATE statement on one matching row: set the five
named columns to the computed values, leaving `id` and `created_at`
untouched. -/
def setCols (r v : Row) : Row :=
  { r with
    name := v.name
    species := v.species
    watering_interval_days := v.watering_interval_days
    last_watered_at := v.last_watered_at
    notes := v.notes }

/-- `updatePlant` (db.js): return `null` and leave the store unchanged
when the id is not found; otherwise merge the updates into the existing
record, UPDATE the five columns of the rows with that id, and re-fetch
the record. -/
def updatePlant (s : Store) (id : Int) (u : Updates) : Store × Option Plant :=
  match getRow s id with
  | none => (s, none)
  | some existing =>
    let next := applyUpdates existing u
    let s' : Store :=
      { s with rows := s.rows.map (fun r => if r.id == id then setCols r next else r) }
    (s', getPlant s' id)

/-- `deletePlant` (db.js): DELETE the rows with the given id; the boolean
reports whether any row was removed (`getRowsModified() > 0`). -/
def deletePlant (s : Store) (id : Int) : Store × Bool :=
  let remaining := s.rows.filter (fun r => !(r.id == id))
  ({ s with rows := remaining }, decide (remaining.length < s.rows.length))

/-- `isDueNow` (client): due when `lastWateredAt` is falsy, or
`nextWateringDueAt` is falsy or unparseable, or the due instant is at or
before `now` (`Date.now()`). -/
def isDueNow (plant : Plant) (now : Int) : Bool :=
  if plant.lastWateredAt.isFalsy then true
  else if plant.nextWateringDueAt.isFalsy then true
  else
    match plant.nextWateringDueAt.parse with
    | none => true
    | some due => decide (due ≤ now)

/-- An urgency badge: label text and tone class. -/
structure DueBadge where
  text : String
  tone : String
deriving DecidableEq, Repr

/-- `dueLabel` (client): fixed "Needs water" badge when `lastWateredAt`
or `nextWateringDueAt` is falsy or the latter does not parse; otherwise
classify by `diffDays = ceil((due - now) / msPerDay)`. -/
def dueLabel (plant : Plant) (now : Int) : DueBadge :=
  if plant.lastWateredAt.isFalsy || plant.nextWateringDueAt.isFalsy then
    { text := "Needs water", tone := "due" }
  else
    match plant.nextWateringDueAt.parse with
    | none => { text := "Needs water", tone := "due" }
    | some due =>
      let diffDays : Int := ceilDiv (due - now) msPerDay
      if diffDays ≤ 0 then
        if diffDays < 0 then
          { text := "Overdue " ++ toString diffDays.natAbs ++ "d", tone := "due" }
        else { text := "Due today", tone := "due" }
      else if diffDays ≤ 2 then
        { text := "Due in " ++ toString diffDays ++ "d", tone := "soon" }
      else { text := "Due in " ++ toString diffDays ++ "d", tone := "ok" }

/-- A raw JSON number as seen by `parseInterval`: either not an integer
(`Number.isInteger` fails) or an integer value. -/
inductive JsNum where
  | notInt
  | int (n : Int)
deriving DecidableEq, Repr

/-- `parseInterval` (HTTP layer): `null` unless the value is an integer
in `[1, 365]`. -/
def parseInterval : JsNum → Option Int
  | .notInt => none
  | .int v => if 1 ≤ v ∧ v ≤ 365 then some v else none

/-- Stores reachable from the empty database through the public HTTP
endpoints.  The hypotheses on each constructor are exactly the guards the
HTTP validation layer enforces before calling into db.js: an interval is
only ever passed when `parseInterval` accepted it, and `lastWateredAt`
is only ever passed as null or a re-serialised valid timestamp
(`parseDateOrNull`). -/
inductive Reachable : Store → Prop
  | empty : Reachable { rows := [], nextId := 1 }
  | create (s : Store) (input : CreateInput) (nowTs : Int) (raw : JsNum)
      (hw : parseInterval raw = some input.wateringIntervalDays)
      (hts : input.lastWateredAt.wf = true)
      (hs : Reachable s) : Reachable (createPlant s input nowTs).1
  | update (s : Store) (id : Int) (u : Updates)
      (hw : ∀ w, u.wateringIntervalDays = some w → ∃ raw, parseInterval raw = some w)
      (hts : ∀ lw, u.lastWateredAt = some lw → RawTs.wf lw = true)
      (hs : Reachable s) : Reachable (updatePlant s id u).1
  | remove (s : Store) (id : Int)
      (hs : Reachable s) : Reachable (deletePlant s id).1

/-! Sample data used by the witness theorems. -/

/-- A row watered at the epoch with a 7-day interval. -/
def rowW1 : Row :=
  { id := 1, name := "Fern", species := "Nephrolepis", watering_interval_days := 7,
    last_watered_at := .tsValid 0, notes := "", created_at := 0 }

/-- A never-watered row. -/
def rowW2 : Row :=
  { id := 2, name := "Cactus", species := "Opuntia", watering_interval_days := 30,
    last_watered_at := .tsNull, notes := "", created_at := 5 }

/-- A row watered nine days before the epoch on a 10-day interval. -/
def rowW3 : Row :=
  { id := 3, name := "Pothos", species := "Epipremnum", watering_interval_days := 10,
    last_watered_at := .tsValid (-777600000), notes := "", created_at := 9 }

/-- A concrete create request that passes the HTTP validation layer. -/
def inputS1 : CreateInput :=
  { name := "Aloe", species := "Aloe vera", wateringIntervalDays := 7,
    lastWateredAt := .tsNull, notes := "" }

/-- The store obtained by one create on the empty database. -/
def storeS1 : Store := (createPlant { rows := [], nextId := 1 } inputS1 100).1

/-- The single row of `storeS1`. -/
def rowS1 : Row :=
  { id := 1, name := "Aloe", species := "Aloe vera", watering_interval_days := 7,
    last_watered_at := .tsNull, notes := "", created_at := 100 }

/-- A rename-only updates object (every other field absent). -/
def updatesS1 : Updates := { name := some "Aloe Vera" }

/-- A row whose stored timestamp sits half a second past a whole second
(`1970-01-01T00:00:00.500Z`), on a 7-day interval. -/
def rowC4 : Row :=
  { id := 4, name := "Basil", species := "Ocimum basilicum", watering_interval_days := 7,
    last_watered_at := .tsValid 500, notes := "", created_at := 12 }

/-! Helper lemmas shared by the claim proofs. -/

theorem decide_lt_eq_not_decide_le (x y : Int) : decide (y < x) = !decide (x ≤ y) := by
by_cases h : x ≤ y
· simp [h, not_lt.mpr h]
· simp [h, not_le.mp h]

theorem sqlOr_false (b : Option Bool) : sqlOr (some false) b = b := by
cases b with
| none => rfl
| some v => cases v <;> rfl

theorem sqlAnd_true (b : Option Bool) : sqlAnd (some true) b = b := by
cases b with
| none => rfl
| some v => cases v <;> rfl

theorem sqlIsTrue_decide (p : Prop) [Decidable p] : sqlIsTrue (some (decide p)) = decide p := by
by_cases h : p <;> simp [h, sqlIsTrue]

theorem sqlIsTrue_some (b : Bool) : sqlIsTrue (some b) = b := by
cases b <;> rfl

/-- Truncation to a whole second is the identity on instants that are
already whole seconds. -/
theorem truncSec_eq_self (t : Int) (h : t % 1000 = 0) : truncSec t = t := by
simp only [truncSec]
omega

/-- Advancing by whole days preserves whole-second alignment. -/
theorem addDays_emod_1000 (t d : Int) (h : t % 1000 = 0) : addDays t d % 1000 = 0 := by
simp only [addDays, msPerDay]
omega

/-- On a record satisfying the storage contract with a non-negative
interval, when stored instant and `now` are aligned to whole seconds,
the SQL `due` predicate computes exactly the client rule. -/
theorem dueWhere_eq_isDueNow (r : Row) (now : Int)
    (hwf : r.last_watered_at.wf = true) (hpos : 1 ≤ r.watering_interval_days)
    (hsec : ∀ t, r.last_watered_at = .tsValid t → t % 1000 = 0)
    (hnow : now % 1000 = 0) :
    sqlIsTrue (dueWhere r now) = isDueNow (mapRow r) now := by
have hd : (0 : Int) ≤ r.watering_interval_days := le_trans (by decide) hpos
cases hts : r.last_watered_at with
| tsNull =>
    simp [dueWhere, isNullTs, sqlOr, sqlIsTrue, isDueNow, mapRow, hts, RawTs.isFalsy]
| tsEmpty => simp [RawTs.wf, hts] at hwf
| tsInvalid => simp [RawTs.wf, hts] at hwf
| tsValid t =>
    have h1 : truncSec (addDays t r.watering_interval_days) = addDays t r.watering_interval_days :=
      truncSec_eq_self _ (addDays_emod_1000 t _ (hsec t hts))
    have h2 : truncSec now = now := truncSec_eq_self now hnow
    simp only [dueWhere, isNullTs, hts, sqlDatetimeAddDays, if_pos hd, h1, h2, sqlLe,
      sqlOr_false, sqlIsTrue_decide, isDueNow, mapRow, RawTs.isFalsy, nextWateringDueAt,
      RawTs.parse, toStoredTs, Bool.false_eq_true, if_false]

/-- On such a record the SQL `upcoming` predicate is the exact negation
of the `due` predicate. -/
theorem upcomingWhere_eq_not_due (r : Row) (now : Int)
    (hwf : r.last_watered_at.wf = true) (hpos : 1 ≤ r.watering_interval_days) :
    sqlIsTrue (upcomingWhere r now) = !sqlIsTrue (dueWhere r now) := by
have hd : (0 : Int) ≤ r.watering_interval_days := le_trans (by decide) hpos
cases hts : r.last_watered_at with
| tsNull =>
    simp [upcomingWhere, dueWhere, isNullTs, sqlAnd, sqlOr, sqlIsTrue, hts]
| tsEmpty => simp [RawTs.wf, hts] at hwf
| tsInvalid => simp [RawTs.wf, hts] at hwf
| tsValid t =>
    simp only [upcomingWhere, dueWhere, isNullTs, hts, sqlDatetimeAddDays, if_pos hd,
      sqlLe, sqlGt, Bool.not_false, sqlOr_false, sqlAnd_true, sqlIsTrue_some,
      decide_lt_eq_not_decide_le]

/-- Counterexample to C1 as stated: the persisted record `rowC4`
(watered half a second past the epoch second, 7-day interval — a value
`parseDateOrNull` accepts, since `toISOString` keeps milliseconds) at
the instant 200 ms into its due second.  `datetime()` truncates both
sides to whole seconds, so the SQL `due` predicate already holds, while
the client's millisecond comparison in `isDueNow` still says not due. -/
theorem due_filter_subsecond_divergence :
    RawTs.wf rowC4.last_watered_at = true ∧ (1 : Int) ≤ rowC4.watering_interval_days ∧
      sqlIsTrue (dueWhere rowC4 604800200) = true ∧
      isDueNow (mapRow rowC4) 604800200 = false := by
decide

/-- C1 (amended): for every persisted record (storage contract:
`last_watered_at` NULL or parseable, interval at least 1) whose stored
instant is aligned to a whole second, and every whole-second instant
`now`, the SQL `due` predicate of `listPlants` agrees with the client
`isDueNow` on the mapped record, and the `upcoming` predicate agrees
with its negation.  (At sub-second offsets the two rules genuinely
diverge, because `datetime()` compares second-truncated renderings
while the client compares milliseconds.) -/
theorem due_filter_matches_client (r : Row) (now : Int)
    (hwf : r.last_watered_at.wf = true) (hpos : 1 ≤ r.watering_interval_days)
    (hsec : ∀ t, r.last_watered_at = .tsValid t → t % 1000 = 0)
    (hnow : now % 1000 = 0) :
    sqlIsTrue (dueWhere r now) = isDueNow (mapRow r) now ∧
      sqlIsTrue (upcomingWhere r now) = !isDueNow (mapRow r) now := by
refine ⟨dueWhere_eq_isDueNow r now hwf hpos hsec hnow, ?_⟩
rw [upcomingWhere_eq_not_due r now hwf hpos,
  dueWhere_eq_isDueNow r now hwf hpos hsec hnow]

/-- Witness for C1 at a concrete second-aligned record and instant. -/
theorem due_filter_matches_client_witness :
    RawTs.wf rowW1.last_watered_at = true ∧ (1 : Int) ≤ rowW1.watering_interval_days ∧
      (604800000 : Int) % 1000 = 0 ∧
      (sqlIsTrue (dueWhere rowW1 604800000) = isDueNow (mapRow rowW1) 604800000 ∧
        sqlIsTrue (upcomingWhere rowW1 604800000) = !isDueNow (mapRow rowW1) 604800000) :=
⟨by decide, by decide, by decide,
  due_filter_matches_client rowW1 604800000 (by decide) (by decide)
    (by intro t ht; simp [rowW1] at ht; omega) (by decide)⟩

/-- Splitting a list by two pointwise-complementary boolean predicates
is a permutation of the list. -/
theorem filter_compl_perm {α : Type} (p q : α → Bool) :
    ∀ l : List α, (∀ x ∈ l, q x = !p x) →
      List.Perm (l.filter p ++ l.filter q) l := by
intro l
induction l with
| nil => intro _; simp
| cons a l ih =>
    intro h
    have ha := h a (by simp)
    have hl : ∀ x ∈ l, q x = !p x := fun x hx => h x (by simp [hx])
    simp only [List.filter_cons]
    cases hp : p a with
    | false =>
        rw [hp] at ha
        simp only [hp, ha, Bool.not_false, if_pos rfl]
        simp only [Bool.false_eq_true, if_false]
        exact List.Perm.trans List.perm_middle ((ih hl).cons a)
    | true =>
        rw [hp] at ha
        simp only [hp, ha, Bool.not_true, if_pos rfl]
        simp only [Bool.false_eq_true, if_false]
        exact (ih hl).cons a

/-- `rowLe` spelled out as a proposition. -/
theorem rowLe_iff (a b : Row) :
    rowLe a b = true ↔
      b.created_at < a.created_at ∨ (a.created_at = b.created_at ∧ b.id ≤ a.id) := by
by_cases h : a.created_at = b.created_at <;> simp [rowLe, h]

/-- C2: over records satisfying the storage contract, the `due` and
`upcoming` WHERE clauses of `listPlants` partition the table: no record
satisfies both, every record satisfies at least one, and the `due` and
`upcoming` result lists together are a permutation of the `all` result
list. -/
theorem due_upcoming_partition (table : List Row) (now : Int)
    (hwf : ∀ r ∈ table, r.last_watered_at.wf = true ∧ 1 ≤ r.watering_interval_days) :
    (∀ r ∈ table,
      ¬(sqlIsTrue (dueWhere r now) = true ∧ sqlIsTrue (upcomingWhere r now) = true))
    ∧ (∀ r ∈ table,
        sqlIsTrue (dueWhere r now) = true ∨ sqlIsTrue (upcomingWhere r now) = true)
    ∧ List.Perm (listPlants table "due" now ++ listPlants table "upcoming" now)
        (listPlants table "all" now) := by
have hneg : ∀ r ∈ table, sqlIsTrue (upcomingWhere r now) = !sqlIsTrue (dueWhere r now) :=
  fun r hr => upcomingWhere_eq_not_due r now (hwf r hr).1 (hwf r hr).2
refine ⟨?_, ?_, ?_⟩
· rintro r hr ⟨h1, h2⟩
  rw [hneg r hr, h1] at h2
  simp at h2
· intro r hr
  cases h : sqlIsTrue (dueWhere r now) with
  | true => exact Or.inl rfl
  | false =>
      refine Or.inr ?_
      rw [hneg r hr, h]
      rfl
· have hdue : ∀ r : Row, rowMatchesFilter "due" r now = sqlIsTrue (dueWhere r now) :=
    fun r => rfl
  have hup : ∀ r : Row, rowMatchesFilter "upcoming" r now = sqlIsTrue (upcomingWhere r now) :=
    fun r => rfl
  have hall :
      table.filter (fun r => rowMatchesFilter "all" r now) = table :=
    List.filter_eq_self.mpr (fun r _ => rfl)
  simp only [listPlants, hall]
  have hperm :
      List.Perm
        ((table.filter (fun r => rowMatchesFilter "due" r now)).mergeSort rowLe ++
          (table.filter (fun r => rowMatchesFilter "upcoming" r now)).mergeSort rowLe)
        (table.mergeSort rowLe) := by
    refine List.Perm.trans
      (List.Perm.append (List.mergeSort_perm _ _) (List.mergeSort_perm _ _)) ?_
    refine List.Perm.trans ?_ (List.mergeSort_perm _ _).symm
    refine filter_compl_perm _ _ table ?_
    intro r hr
    rw [hdue r, hup r, hneg r hr]
  rw [← List.map_append]
  exact hperm.map mapRow

/-- Witness for C2 on a concrete three-row table. -/
theorem due_upcoming_partition_witness :
    (∀ r ∈ [rowW1, rowW2, rowW3],
      ¬(sqlIsTrue (dueWhere r 0) = true ∧ sqlIsTrue (upcomingWhere r 0) = true))
    ∧ (∀ r ∈ [rowW1, rowW2, rowW3],
        sqlIsTrue (dueWhere r 0) = true ∨ sqlIsTrue (upcomingWhere r 0) = true)
    ∧ List.Perm (listPlants [rowW1, rowW2, rowW3] "due" 0 ++
          listPlants [rowW1, rowW2, rowW3] "upcoming" 0)
        (listPlants [rowW1, rowW2, rowW3] "all" 0) :=
due_upcoming_partition [rowW1, rowW2, rowW3] 0 (by decide)

/-- C6: for every filter the sequence returned by `listPlants` is
ordered newest-created first, ties broken by descending id. -/
theorem listPlants_sorted (table : List Row) (filter : String) (now : Int) :
    List.Pairwise
      (fun a b : Plant =>
        b.createdAt < a.createdAt ∨ (a.createdAt = b.createdAt ∧ b.id ≤ a.id))
      (listPlants table filter now) := by
have htrans : ∀ a b c : Row, rowLe a b → rowLe b c → rowLe a c := by
  intro a b c hab hbc
  rw [rowLe_iff] at hab hbc ⊢
  omega
have htotal : ∀ a b : Row, rowLe a b || rowLe b a := by
  intro a b
  rw [Bool.or_eq_true, rowLe_iff, rowLe_iff]
  omega
have hs := List.sorted_mergeSort htrans htotal
  (table.filter (fun r => rowMatchesFilter filter r now))
simp only [listPlants]
refine List.Pairwise.map mapRow ?_ hs
intro a b hab
simpa [mapRow] using (rowLe_iff a b).mp hab

/-- C3: `nextWateringDueAt` returns null exactly when `lastWateredAt` is
null/absent or does not parse as a timestamp, and otherwise advances the
parsed instant by the interval in whole calendar days (time of day
preserved, day index advanced by the interval); every record produced by
a read (`mapRow`) carries a derived `nextWateringDueAt` that is present
iff `last_watered_at` parses, and then equals it advanced by
`watering_interval_days` days. -/
theorem computeNextDueAt_spec (last : RawTs) (n : Int) (row : Row) :
    (nextWateringDueAt last n = none ↔ last.parse = none)
    ∧ (∀ t, last.parse = some t → nextWateringDueAt last n = some (addDays t n))
    ∧ (∀ t, addDays t n % msPerDay = t % msPerDay ∧ addDays t n / msPerDay = t / msPerDay + n)
    ∧ ((mapRow row).nextWateringDueAt = .tsNull ↔ row.last_watered_at.parse = none)
    ∧ (∀ t, row.last_watered_at.parse = some t →
        (mapRow row).nextWateringDueAt = .tsValid (addDays t row.watering_interval_days)) := by
refine ⟨?_, ?_, ?_, ?_, ?_⟩
· cases last <;> simp [nextWateringDueAt, RawTs.parse, RawTs.isFalsy]
· intro t ht
  cases last <;> simp [RawTs.parse] at ht <;>
    simp [nextWateringDueAt, RawTs.parse, RawTs.isFalsy, ht]
· intro t
  constructor
  · simp only [addDays, msPerDay]; omega
  · simp only [addDays, msPerDay]; omega
· cases h : row.last_watered_at <;>
    simp [mapRow, nextWateringDueAt, RawTs.parse, RawTs.isFalsy, toStoredTs, h]
· intro t ht
  cases h : row.last_watered_at <;> rw [h] at ht <;> simp [RawTs.parse] at ht
  subst ht
  simp [mapRow, nextWateringDueAt, RawTs.parse, RawTs.isFalsy, toStoredTs, h]

/-- Witness for C3 at a concrete timestamp, interval, and row. -/
theorem computeNextDueAt_spec_witness :
    RawTs.parse (RawTs.tsValid 5) = some 5 ∧
      nextWateringDueAt (RawTs.tsValid 5) 3 = some (addDays 5 3) ∧
      (mapRow rowW1).nextWateringDueAt = RawTs.tsValid (addDays 0 7) :=
⟨rfl, (computeNextDueAt_spec (.tsValid 5) 3 rowW1).2.1 5 rfl,
  (computeNextDueAt_spec (.tsValid 5) 3 rowW1).2.2.2.2 0 rfl⟩

/-- C4: `isDueNow` is true iff `lastWateredAt` is absent (falsy), or
`nextWateringDueAt` is absent or unparseable, or the due instant is
`≤ now` (inclusive boundary); a record with NULL `last_watered_at` is
always due and never matches the `upcoming` filter. -/
theorem isDueNow_spec (p : Plant) (now : Int) (r : Row) :
    (isDueNow p now = true ↔
      p.lastWateredAt.isFalsy = true ∨ p.nextWateringDueAt.isFalsy = true ∨
        p.nextWateringDueAt.parse = none ∨
        ∃ d, p.nextWateringDueAt.parse = some d ∧ d ≤ now)
    ∧ (p.nextWateringDueAt = .tsValid now → isDueNow p now = true)
    ∧ (r.last_watered_at = .tsNull →
        isDueNow (mapRow r) now = true ∧ sqlIsTrue (upcomingWhere r now) = false) := by
refine ⟨?_, ?_, ?_⟩
· rcases p with ⟨i, nm, sp, w, lw, nt, ca, nx⟩
  cases lw <;> cases nx <;> simp [isDueNow, RawTs.isFalsy, RawTs.parse]
· intro h
  cases hl : p.lastWateredAt <;> simp [isDueNow, h, hl, RawTs.isFalsy, RawTs.parse]
· intro h
  constructor
  · simp [isDueNow, mapRow, h, RawTs.isFalsy]
  · simp [upcomingWhere, isNullTs, h, sqlAnd, sqlIsTrue]

/-- Witness for C4 at a concrete plant, record, and instant. -/
theorem isDueNow_spec_witness :
    rowW2.last_watered_at = RawTs.tsNull ∧
      (isDueNow (mapRow rowW2) 0 = true ∧ sqlIsTrue (upcomingWhere rowW2 0) = false) :=
⟨rfl, (isDueNow_spec (mapRow rowW2) 0 rowW2).2.2 rfl⟩

/-- C5: on a record read from storage, when `last_watered_at` parses the
display classifier computes `d = ceil((nextWateringDueAt - now) / 1 day)`
and returns tone `due` with text `Overdue {abs d}d` for `d < 0`, tone
`due` with `Due today` for `d = 0`, tone `soon` with `Due in {d}d` for
`1 ≤ d ≤ 2`, and tone `ok` with `Due in {d}d` for `d > 2`; when
`last_watered_at` is absent or unparseable it returns the fixed badge
`Needs water` with tone `due`. -/
theorem dueLabel_spec (r : Row) (now : Int) :
    (r.last_watered_at.parse = none →
      dueLabel (mapRow r) now = ⟨"Needs water", "due"⟩)
    ∧ ∀ t, r.last_watered_at.parse = some t →
        ∀ d, d = ceilDiv (addDays t r.watering_interval_days - now) msPerDay →
          (d < 0 → dueLabel (mapRow r) now = ⟨"Overdue " ++ toString d.natAbs ++ "d", "due"⟩)
          ∧ (d = 0 → dueLabel (mapRow r) now = ⟨"Due today", "due"⟩)
          ∧ (1 ≤ d → d ≤ 2 → dueLabel (mapRow r) now = ⟨"Due in " ++ toString d ++ "d", "soon"⟩)
          ∧ (2 < d → dueLabel (mapRow r) now = ⟨"Due in " ++ toString d ++ "d", "ok"⟩) := by
constructor
· intro hp
  cases hts : r.last_watered_at with
  | tsValid t => rw [hts] at hp; simp [RawTs.parse] at hp
  | tsNull =>
      simp [dueLabel, mapRow, hts, RawTs.isFalsy, nextWateringDueAt, toStoredTs]
  | tsEmpty =>
      simp [dueLabel, mapRow, hts, RawTs.isFalsy, nextWateringDueAt, toStoredTs]
  | tsInvalid =>
      simp [dueLabel, mapRow, hts, RawTs.isFalsy, RawTs.parse, nextWateringDueAt, toStoredTs]
· intro t hpt d hd
  have hts : r.last_watered_at = .tsValid t := by
    cases h : r.last_watered_at <;> rw [h] at hpt <;> simp [RawTs.parse] at hpt
    rw [hpt]
  have hlab : dueLabel (mapRow r) now =
      (if d ≤ 0 then
        if d < 0 then ⟨"Overdue " ++ toString d.natAbs ++ "d", "due"⟩
        else ⟨"Due today", "due"⟩
      else if d ≤ 2 then ⟨"Due in " ++ toString d ++ "d", "soon"⟩
      else (⟨"Due in " ++ toString d ++ "d", "ok"⟩ : DueBadge)) := by
    rw [hd]
    simp [dueLabel, mapRow, hts, RawTs.isFalsy, nextWateringDueAt, RawTs.parse, toStoredTs]
  refine ⟨?_, ?_, ?_, ?_⟩
  · intro h
    rw [hlab, if_pos (le_of_lt h), if_pos h]
  · intro h
    rw [hlab, if_pos (le_of_eq h), if_neg (by omega)]
  · intro h1 h2
    rw [hlab, if_neg (by omega), if_pos h2]
  · intro h
    rw [hlab, if_neg (by omega), if_neg (by omega)]

/-- Witness for C5: a plant watered 9 days ago on a 10-day interval is
"Due in 1d" with tone `soon`, and a never-watered plant reads
"Needs water". -/
theorem dueLabel_spec_witness :
    dueLabel (mapRow rowW3) 0 = ⟨"Due in 1d", "soon"⟩ ∧
      dueLabel (mapRow rowW2) 0 = ⟨"Needs water", "due"⟩ :=
⟨((dueLabel_spec rowW3 0).2 (-777600000) rfl 1 (by decide)).2.2.1
    (by decide) (by decide),
  (dueLabel_spec rowW2 0).1 rfl⟩

/-- C7: for a fixed parseable `lastWateredAt` and intervals
`1 ≤ d1 ≤ d2 ≤ 365`, the computed due instants are monotone:
`nextWateringDueAt` is monotonically increasing in the interval. -/
theorem computeNextDueAt_monotone (t d1 d2 : Int)
    (h1 : 1 ≤ d1) (h12 : d1 ≤ d2) (h2 : d2 ≤ 365) (v1 v2 : Int)
    (hv1 : nextWateringDueAt (.tsValid t) d1 = some v1)
    (hv2 : nextWateringDueAt (.tsValid t) d2 = some v2) : v1 ≤ v2 := by
simp [nextWateringDueAt, RawTs.isFalsy, RawTs.parse, addDays, msPerDay] at hv1 hv2
omega

/-- Witness for C7 at a concrete timestamp and interval pair. -/
theorem computeNextDueAt_monotone_witness : (604800000 : Int) ≤ 2592000000 :=
computeNextDueAt_monotone 0 7 30 (by decide) (by decide) (by decide)
  604800000 2592000000 (by decide) (by decide)

/-- `parseInterval` only ever accepts integers in `[1, 365]`. -/
theorem parseInterval_bounds (raw : JsNum) (w : Int)
    (h : parseInterval raw = some w) : 1 ≤ w ∧ w ≤ 365 := by
cases raw with
| notInt => simp [parseInterval] at h
| int v =>
    by_cases hv : 1 ≤ v ∧ v ≤ 365
    · simp [parseInterval, hv] at h
      omega
    · simp [parseInterval, hv] at h

/-- C8: in every store reachable from the empty database through the
public create/update/delete operations (whose interval inputs pass the
HTTP validation layer's `parseInterval`), every persisted record has
`watering_interval_days` between 1 and 365 inclusive. -/
theorem interval_invariant (s : Store) (hs : Reachable s) :
    ∀ r ∈ s.rows, 1 ≤ r.watering_interval_days ∧ r.watering_interval_days ≤ 365 := by
induction hs with
| empty => intro r hr; simp at hr
| create s input nowTs raw hw hts hs ih =>
    intro r hr
    simp only [createPlant] at hr
    rcases List.mem_append.mp hr with h | h
    · exact ih r h
    · have hr' := List.mem_singleton.mp h
      rw [hr']
      exact parseInterval_bounds raw input.wateringIntervalDays hw
| update s id u hw hts hs ih =>
    intro r hr
    cases hg : getRow s id with
    | none =>
        rw [updatePlant, hg] at hr
        exact ih r hr
    | some existing =>
        have hex : existing ∈ s.rows := List.mem_of_find?_eq_some hg
        rw [updatePlant, hg] at hr
        simp only at hr
        rcases List.mem_map.mp hr with ⟨x, hx, hfx⟩
        by_cases hid : (x.id == id) = true
        · rw [if_pos hid] at hfx
          rw [← hfx]
          simp only [setCols, applyUpdates]
          cases hu : u.wateringIntervalDays with
          | none => simpa [hu] using ih existing hex
          | some w =>
              rcases hw w hu with ⟨raw, hraw⟩
              simpa [hu] using parseInterval_bounds raw w hraw
        · rw [if_neg hid] at hfx
          rw [← hfx]
          exact ih x hx
| remove s id hs ih =>
    intro r hr
    simp only [deletePlant] at hr
    exact ih r (List.mem_of_mem_filter hr)

/-- Witness for C8: the invariant evaluated on the store obtained by one
validated create on the empty database. -/
theorem interval_invariant_witness :
    1 ≤ rowS1.watering_interval_days ∧ rowS1.watering_interval_days ≤ 365 :=
interval_invariant storeS1
  (Reachable.create { rows := [], nextId := 1 } inputS1 100 (.int 7) (by decide) (by decide)
    Reachable.empty)
  rowS1 (by decide)

/-- C9: `updatePlant` preserves `id` and `created_at` of every row
(only the five updatable columns can change), and leaves every row whose
id differs from the target completely unchanged. -/
theorem updatePlant_frame (s : Store) (id : Int) (u : Updates) :
    List.Forall₂
      (fun r r' : Row =>
        r'.id = r.id ∧ r'.created_at = r.created_at ∧ (r.id ≠ id → r' = r))
      s.rows ((updatePlant s id u).1).rows := by
cases hg : getRow s id with
| none =>
    rw [updatePlant, hg]
    exact List.forall₂_same.mpr (fun r _ => ⟨rfl, rfl, fun _ => rfl⟩)
| some existing =>
    rw [updatePlant, hg]
    simp only
    rw [List.forall₂_map_right_iff]
    refine List.forall₂_same.mpr ?_
    intro r _
    by_cases hid : (r.id == id) = true
    · rw [if_pos hid]
      exact ⟨rfl, rfl, fun hcon => absurd (beq_iff_eq.mp hid) hcon⟩
    · rw [if_neg hid]
      exact ⟨rfl, rfl, fun _ => rfl⟩

/-- C10: `updatePlant` merges partially — each field keeps its stored
value unless the updates object supplies an acceptable replacement
(non-empty string for `name`/`species`, an integer for
`wateringIntervalDays`, a string or explicit null for `lastWateredAt`, a
string for `notes`) — and on an unknown id it returns null and leaves
the store unchanged. -/
theorem updatePlant_merge (s : Store) (id : Int) (u : Updates) :
    (getRow s id = none → updatePlant s id u = (s, none))
    ∧ ∀ existing, getRow s id = some existing →
        ((updatePlant s id u).1.rows =
          s.rows.map (fun r => if r.id == id then setCols r (applyUpdates existing u) else r))
        ∧ (u.name = none → (applyUpdates existing u).name = existing.name)
        ∧ (∀ nm, u.name = some nm → nm.length = 0 →
            (applyUpdates existing u).name = existing.name)
        ∧ (∀ nm, u.name = some nm → 0 < nm.length → (applyUpdates existing u).name = nm)
        ∧ (u.species = none → (applyUpdates existing u).species = existing.species)
        ∧ (∀ sp, u.species = some sp → sp.length = 0 →
            (applyUpdates existing u).species = existing.species)
        ∧ (∀ sp, u.species = some sp → 0 < sp.length → (applyUpdates existing u).species = sp)
        ∧ (u.wateringIntervalDays = none →
            (applyUpdates existing u).watering_interval_days = existing.watering_interval_days)
        ∧ (∀ w, u.wateringIntervalDays = some w →
            (applyUpdates existing u).watering_interval_days = w)
        ∧ (u.lastWateredAt = none →
            (applyUpdates existing u).last_watered_at = existing.last_watered_at)
        ∧ (∀ lw, u.lastWateredAt = some lw → (applyUpdates existing u).last_watered_at = lw)
        ∧ (u.notes = none → (applyUpdates existing u).notes = existing.notes)
        ∧ (∀ nt, u.notes = some nt → (applyUpdates existing u).notes = nt) := by
constructor
· intro hg
  rw [updatePlant, hg]
· intro existing hg
  rw [updatePlant, hg]
  refine ⟨rfl, ?_, ?_, ?_, ?_, ?_, ?_, ?_, ?_, ?_, ?_, ?_, ?_⟩
  · intro h; simp [applyUpdates, h]
  · intro nm h hlen; simp [applyUpdates, h, hlen]
  · intro nm h hlen; simp [applyUpdates, h, Nat.pos_iff_ne_zero.mp hlen]
  · intro h; simp [applyUpdates, h]
  · intro sp h hlen; simp [applyUpdates, h, hlen]
  · intro sp h hlen; simp [applyUpdates, h, Nat.pos_iff_ne_zero.mp hlen]
  · intro h; simp [applyUpdates, h]
  · intro w h; simp [applyUpdates, h]
  · intro h; simp [applyUpdates, h]
  · intro lw h; simp [applyUpdates, h]
  · intro h; simp [applyUpdates, h]
  · intro nt h; simp [applyUpdates, h]

/-- Witness for C10: a rename-only update on a concrete store changes
`name` and keeps the interval, and an update on a missing id is a
no-op. -/
theorem updatePlant_merge_witness :
    ((applyUpdates rowS1 updatesS1).name = "Aloe Vera"
      ∧ (applyUpdates rowS1 updatesS1).watering_interval_days = rowS1.watering_interval_days)
    ∧ updatePlant storeS1 99 updatesS1 = (storeS1, none) :=
⟨⟨((updatePlant_merge storeS1 1 updatesS1).2 rowS1 rfl).2.2.2.1 "Aloe Vera" rfl (by decide),
    ((updatePlant_merge storeS1 1 updatesS1).2 rowS1 rfl).2.2.2.2.2.2.2.1 rfl⟩,
  (updatePlant_merge storeS1 99 updatesS1).1 rfl⟩

end PlantApp
